import Mathlib

/-!
Verification of the Vulkan renderer / shader-reflection subsystem of this
repository (files `ofVkRenderer.cpp` and `of/vk/Shader.cpp`).

The C++ code is shallowly embedded: machine integers become `Nat` (all values
involved are small and unsigned; overflow never occurs in the modelled code),
`std::map` becomes an association list kept sorted by key (matching the
iteration order of `std::map`), and straight-line Vulkan command recording
becomes an explicit list of recorded operations.
-/

/- ===================== Vulkan constants (values from vulkan.h) ===================== -/

def VK_SHADER_STAGE_VERTEX_BIT : Nat := 1

def VK_SHADER_STAGE_FRAGMENT_BIT : Nat := 16

def VK_DESCRIPTOR_TYPE_UNIFORM_BUFFER_DYNAMIC : Nat := 8

def VK_PIPELINE_STAGE_BOTTOM_OF_PIPE_BIT : Nat := 8192

def VK_FORMAT_UNDEFINED : Nat := 0

def VK_FORMAT_B8G8R8A8_UNORM : Nat := 44

def VK_STRUCTURE_TYPE_WRITE_DESCRIPTOR_SET : Nat := 35

/- ===================== Hash model ===================== -/

/-- Model of the external `SpookyHash::Hash64` library function: a
deterministic 64-bit hash of a message and a seed.  The message is modelled
as the list of 32/64-bit field words fed to the hash (the C++ code hashes the
raw bytes of a packed POD array; word granularity preserves exactly which
fields enter the hash).  Every theorem below relies only on `spookyHash64` being a
deterministic function of its message, or evaluates it at concrete inputs. -/
def spookyHash64 (message : List Nat) (seed : Nat) : Nat :=
  message.foldl (fun h w => (h * 1099511628211 + w + 1) % 2 ^ 64) (seed % 2 ^ 64)

/- ===================== Shader reflection data model (of/vk/Shader.h) ===================== -/

/-- Embedding of `VkDescriptorSetLayoutBinding`.  `pImmutableSamplers` is a
pointer in C++; the code under study only ever stores `nullptr`, modelled as
`0`. -/
structure VkDescriptorSetLayoutBinding where
  binding : Nat
  descriptorType : Nat
  descriptorCount : Nat
  stageFlags : Nat
  pImmutableSamplers : Nat
deriving DecidableEq, Repr

/-- Embedding of `of::vk::Shader::BindingInfo`: one reflected uniform block.
`memberRanges` embeds the `std::map<std::string, MemberRange>` of per-member
(offset, range) pairs as a key-sorted association list. -/
structure BindingInfo where
  set : Nat
  binding : VkDescriptorSetLayoutBinding
  size : Nat
  name : String
  memberRanges : List (String × Nat × Nat)
deriving DecidableEq, Repr

/- ===================== SetLayout::calculateHash (Shader.cpp 421-456) ===================== -/

/-- The `BindingInfoPOD` record built inside `SetLayout::calculateHash`:
`{ uint32_t set; VkDescriptorSetLayoutBinding binding; uint32_t size; }`,
serialised as the list of its field words in declaration order.  Note that the
full `VkDescriptorSetLayoutBinding` is copied into the POD, so
`descriptorCount` and the (always-null) `pImmutableSamplers` pointer are part
of the hashed message; `name` and `memberRanges` are not.  (The alignment
padding bytes of the C++ struct are constants and are not modelled.) -/
def bindingInfoPOD (b : BindingInfo) : List Nat :=
  [b.set, b.binding.binding, b.binding.descriptorType, b.binding.descriptorCount,
   b.binding.stageFlags, b.binding.pImmutableSamplers, b.size]

/-- The message handed to `SpookyHash::Hash64` by `SetLayout::calculateHash`:
the concatenated POD records of the layout's bindings, in order. -/
def setLayoutHashMessage (bindings : List BindingInfo) : List Nat :=
  (bindings.map bindingInfoPOD).flatten

/-- Embedding of `of::vk::Shader::SetLayout::calculateHash` (Shader.cpp
421-456): the layout's 64-bit content key, `SpookyHash::Hash64` of the packed
POD array with seed 0, as a function of the layout's `bindings` vector. -/
def calculateHash (bindings : List BindingInfo) : Nat :=
  spookyHash64 (setLayoutHashMessage bindings) 0

/-- Embedding of `of::vk::Shader::SetLayout`: the bindings of one descriptor
set together with the content-hash key. -/
structure SetLayout where
  bindings : List BindingInfo
  key : Nat
deriving DecidableEq, Repr

/- ===================== buildSetLayouts (Shader.cpp 207-255) ===================== -/

/-- The comparator passed to `std::sort` in `buildSetLayouts`:
`lhs.binding.binding < rhs.binding.binding`, as the reflexive order used by
the Lean sort. -/
def bindingLe (a b : BindingInfo) : Prop :=
  a.binding.binding ≤ b.binding.binding

instance : DecidableRel bindingLe := fun a b => Nat.decLe _ _

instance : IsTotal BindingInfo bindingLe :=
  ⟨fun a b => Nat.le_total a.binding.binding b.binding.binding⟩

instance : IsTrans BindingInfo bindingLe :=
  ⟨fun _ _ _ h h2 => Nat.le_trans h h2⟩

/-- The per-set sorting step of `buildSetLayouts` (Shader.cpp 216-221):
sort a set's bindings by binding number ascending. -/
def sortBindings (l : List BindingInfo) : List BindingInfo :=
  l.insertionSort bindingLe

/-- Two lists sorted by binding number that are permutations of each other and
whose binding numbers are pairwise distinct are equal. -/
theorem sortedBindings_perm_eq : ∀ {l₁ l₂ : List BindingInfo}, l₁.Perm l₂ →
    l₁.Sorted bindingLe → l₂.Sorted bindingLe →
    (l₁.map fun b => b.binding.binding).Nodup → l₁ = l₂ := by
  intro l₁
  induction l₁ with
  | nil =>
    intro l₂ hp _ _ _
    exact (List.Perm.nil_eq hp).symm ▸ rfl
  | cons a t ih =>
    intro l₂ hp hs₁ hs₂ hn
    cases l₂ with
    | nil => exact absurd hp.length_eq (by simp)
    | cons b t₂ =>
      have hmem_a : a ∈ b :: t₂ := hp.subset (List.mem_cons_self a t)
      have hmem_b : b ∈ a :: t := hp.symm.subset (List.mem_cons_self b t₂)
      have hab : a = b := by
        rcases List.mem_cons.mp hmem_a with h | h
        · exact h
        · -- a sits in the tail of the sorted list b :: t₂
          have hba : b.binding.binding ≤ a.binding.binding :=
            List.rel_of_sorted_cons hs₂ a h
          have hkey : a.binding.binding = b.binding.binding := by
            rcases List.mem_cons.mp hmem_b with h2 | h2
            · exact h2 ▸ rfl
            · exact Nat.le_antisymm (List.rel_of_sorted_cons hs₁ b h2) hba
          -- binding numbers of l₂ are nodup, a ∈ t₂ shares b's number: contradiction
          have hn₂ : ((b :: t₂).map fun x => x.binding.binding).Nodup :=
            ((hp.map fun x => x.binding.binding).nodup_iff).mp hn
          have hmemkey : b.binding.binding ∈ t₂.map fun x => x.binding.binding := by
            exact hkey ▸ List.mem_map_of_mem _ h
          simp only [List.map_cons, List.nodup_cons] at hn₂
          exact absurd hmemkey hn₂.1
      subst hab
      have htp : t.Perm t₂ := hp.cons_inv
      have : t = t₂ := by
        apply ih htp hs₁.of_cons hs₂.of_cons
        simp only [List.map_cons, List.nodup_cons] at hn
        exact hn.2
      rw [this]

/-- C1: for every pair of SetLayouts built from the same multiset of uniform
bindings — regardless of the order in which the bindings were discovered
during reflection — the 64-bit content hash computed by
`SetLayout::calculateHash` after `buildSetLayouts` sorts the set's bindings by
binding number ascending is identical.  The binding numbers within one set are
pairwise distinct (the spec notes ties are impossible by construction), which
makes the sorted order canonical. -/
theorem setLayout_hash_discovery_order_independent (l₁ l₂ : List BindingInfo)
    (hperm : l₁.Perm l₂)
    (hnodup : (l₁.map fun b => b.binding.binding).Nodup) :
    calculateHash (sortBindings l₁) = calculateHash (sortBindings l₂) := by
  have hsorted : sortBindings l₁ = sortBindings l₂ := by
    apply sortedBindings_perm_eq
    · exact (List.perm_insertionSort bindingLe l₁).trans
        (hperm.trans (List.perm_insertionSort bindingLe l₂).symm)
    · exact List.sorted_insertionSort bindingLe l₁
    · exact List.sorted_insertionSort bindingLe l₂
    · exact (((List.perm_insertionSort bindingLe l₁).map
        fun b => b.binding.binding).nodup_iff).mpr hnodup
  rw [hsorted]

def bindingW1 : BindingInfo :=
  { set := 0
    binding := { binding := 0, descriptorType := VK_DESCRIPTOR_TYPE_UNIFORM_BUFFER_DYNAMIC,
                 descriptorCount := 1, stageFlags := VK_SHADER_STAGE_VERTEX_BIT,
                 pImmutableSamplers := 0 }
    size := 192
    name := "DefaultMatrices"
    memberRanges := [("modelMatrix", 64, 64), ("projectionMatrix", 0, 64), ("viewMatrix", 128, 64)] }

def bindingW2 : BindingInfo :=
  { set := 0
    binding := { binding := 1, descriptorType := VK_DESCRIPTOR_TYPE_UNIFORM_BUFFER_DYNAMIC,
                 descriptorCount := 1, stageFlags := VK_SHADER_STAGE_FRAGMENT_BIT,
                 pImmutableSamplers := 0 }
    size := 16
    name := "Style"
    memberRanges := [("globalColor", 0, 16)] }

/-- Witness for C1: the two discovery orders of a concrete two-binding set
hash to the same key. -/
theorem setLayout_hash_discovery_order_independent_witness :
    calculateHash (sortBindings [bindingW1, bindingW2])
      = calculateHash (sortBindings [bindingW2, bindingW1]) :=
  setLayout_hash_discovery_order_independent [bindingW1, bindingW2] [bindingW2, bindingW1]
    (by decide) (by decide)

/- ===================== C2: what enters the hash ===================== -/

/-- C2 (amended): the SetLayout content hash is computed over a packed
encoding of each binding's `(set, binding-number, descriptorType,
descriptorCount, stageFlags, immutable-sampler pointer, size)` — the full
`BindingInfoPOD` — and over nothing else; in particular the per-member offset
map and the name of a binding never influence the computed key, so two
layouts whose bindings agree pointwise on those POD fields hash equal even
when their member-range tables differ in every entry. -/
theorem setLayout_hash_ignores_memberRanges (l₁ l₂ : List BindingInfo)
    (hagree : List.Forall₂
      (fun a b => a.set = b.set ∧ a.binding = b.binding ∧ a.size = b.size) l₁ l₂) :
    calculateHash l₁ = calculateHash l₂ := by
  have hmsg : setLayoutHashMessage l₁ = setLayoutHashMessage l₂ := by
    unfold setLayoutHashMessage
    induction hagree with
    | nil => rfl
    | cons hab _ ih =>
      simp only [List.map_cons, List.flatten_cons, ih]
      congr 1
      obtain ⟨h1, h2, h3⟩ := hab
      simp [bindingInfoPOD, h1, h2, h3]
  unfold calculateHash
  rw [hmsg]

def bindingM1 : BindingInfo :=
  { set := 0
    binding := { binding := 0, descriptorType := VK_DESCRIPTOR_TYPE_UNIFORM_BUFFER_DYNAMIC,
                 descriptorCount := 1, stageFlags := VK_SHADER_STAGE_VERTEX_BIT,
                 pImmutableSamplers := 0 }
    size := 192
    name := "DefaultMatrices"
    memberRanges := [("modelMatrix", 64, 64), ("projectionMatrix", 0, 64), ("viewMatrix", 128, 64)] }

def bindingM2 : BindingInfo :=
  { set := 0
    binding := { binding := 0, descriptorType := VK_DESCRIPTOR_TYPE_UNIFORM_BUFFER_DYNAMIC,
                 descriptorCount := 1, stageFlags := VK_SHADER_STAGE_VERTEX_BIT,
                 pImmutableSamplers := 0 }
    size := 192
    name := "OtherName"
    memberRanges := [("somethingElse", 0, 192)] }

/-- Witness for C2: two concrete one-binding layouts agreeing on the hashed
POD fields but with entirely different member-range tables (and names) hash
equal. -/
theorem setLayout_hash_ignores_memberRanges_witness :
    calculateHash [bindingM1] = calculateHash [bindingM2] :=
  setLayout_hash_ignores_memberRanges [bindingM1] [bindingM2] (by decide)

def bindingC1 : BindingInfo :=
  { set := 0
    binding := { binding := 0, descriptorType := VK_DESCRIPTOR_TYPE_UNIFORM_BUFFER_DYNAMIC,
                 descriptorCount := 1, stageFlags := VK_SHADER_STAGE_VERTEX_BIT,
                 pImmutableSamplers := 0 }
    size := 192
    name := "DefaultMatrices"
    memberRanges := [] }

def bindingC2 : BindingInfo :=
  { set := 0
    binding := { binding := 0, descriptorType := VK_DESCRIPTOR_TYPE_UNIFORM_BUFFER_DYNAMIC,
                 descriptorCount := 2, stageFlags := VK_SHADER_STAGE_VERTEX_BIT,
                 pImmutableSamplers := 0 }
    size := 192
    name := "DefaultMatrices"
    memberRanges := [] }

/-- Counterexample for C2 as stated: the packed encoding hashed by
`SetLayout::calculateHash` does not contain only each binding's
`(set, binding, descriptorType, stageFlags, size)` — it contains the whole
`VkDescriptorSetLayoutBinding`, so `descriptorCount` (and the sampler
pointer) also enter the hash input.  Two concrete one-binding layouts that
agree on all five claimed fields (and even on their member-range tables) but
differ in `descriptorCount` produce different hash messages and different
keys. -/
theorem setLayout_hash_exact_fields_counterexample :
    bindingC1.set = bindingC2.set ∧
    bindingC1.binding.binding = bindingC2.binding.binding ∧
    bindingC1.binding.descriptorType = bindingC2.binding.descriptorType ∧
    bindingC1.binding.stageFlags = bindingC2.binding.stageFlags ∧
    bindingC1.size = bindingC2.size ∧
    bindingC1.memberRanges = bindingC2.memberRanges ∧
    setLayoutHashMessage [bindingC1] ≠ setLayoutHashMessage [bindingC2] ∧
    calculateHash [bindingC1] ≠ calculateHash [bindingC2] := by
  refine ⟨rfl, rfl, rfl, rfl, rfl, rfl, ?_, ?_⟩ <;> decide

/- ===================== Ordered association maps (std::map model) ===================== -/

/-- Model of `std::map` insertion-or-assignment `m[k] = v`: the association
list is kept sorted by key ascending, matching `std::map` iteration order. -/
def omapSet {κ β : Type} [LinearOrder κ] : List (κ × β) → κ → β → List (κ × β)
  | [], k, v => [(k, v)]
  | (k₁, v₁) :: t, k, v =>
    if k = k₁ then (k, v) :: t
    else if k < k₁ then (k, v) :: (k₁, v₁) :: t
    else (k₁, v₁) :: omapSet t k v

/-- Model of `std::map::find` (returning the mapped value when present). -/
def omapLookup {κ β : Type} [DecidableEq κ] : List (κ × β) → κ → Option β
  | [], _ => none
  | (k₁, v₁) :: t, k => if k = k₁ then some v₁ else omapLookup t k

/-- Keys of an ordered map are strictly ascending. -/
def omapSorted {κ β : Type} [LinearOrder κ] (m : List (κ × β)) : Prop :=
  m.Pairwise fun a b => a.1 < b.1

theorem omapLookup_omapSet_self {κ β : Type} [LinearOrder κ] [DecidableEq κ]
    (m : List (κ × β)) (k : κ) (v : β) :
    omapLookup (omapSet m k v) k = some v := by
  induction m with
  | nil => simp [omapSet, omapLookup]
  | cons e t ih =>
    obtain ⟨k₁, v₁⟩ := e
    by_cases h1 : k = k₁
    · simp [omapSet, h1, omapLookup]
    · by_cases h2 : k < k₁
      · simp [omapSet, h1, h2, omapLookup]
      · simp [omapSet, h1, h2, omapLookup, ih]

theorem omapSet_mem_key {κ β : Type} [LinearOrder κ]
    (m : List (κ × β)) (k : κ) (v : β) :
    ∀ e ∈ omapSet m k v, e.1 = k ∨ e ∈ m := by
  induction m with
  | nil => simp [omapSet]
  | cons e₀ t ih =>
    obtain ⟨k₁, v₁⟩ := e₀
    intro e he
    by_cases h1 : k = k₁
    · simp only [omapSet, if_pos h1] at he
      rcases List.mem_cons.mp he with h | h
      · exact Or.inl (by rw [h])
      · exact Or.inr (List.mem_cons_of_mem _ h)
    · by_cases h2 : k < k₁
      · simp only [omapSet, if_neg h1, if_pos h2] at he
        rcases List.mem_cons.mp he with h | h
        · exact Or.inl (h ▸ rfl)
        · exact Or.inr h
      · simp only [omapSet, if_neg h1, if_neg h2] at he
        rcases List.mem_cons.mp he with h | h
        · exact Or.inr (h ▸ List.mem_cons_self _ _)
        · rcases ih e h with h3 | h3
          · exact Or.inl h3
          · exact Or.inr (List.mem_cons_of_mem _ h3)

/-- Assigning through `operator[]` leaves exactly one entry under the assigned
key (this is the "no duplicate entry" property of a `std::map`). -/
theorem omapSet_countP_key {κ β : Type} [LinearOrder κ] [DecidableEq κ]
    (m : List (κ × β)) (k : κ) (v : β) (hs : omapSorted m) :
    (omapSet m k v).countP (fun e => decide (e.1 = k)) = 1 := by
  induction m with
  | nil => simp [omapSet, List.countP_cons]
  | cons e₀ t ih =>
    obtain ⟨k₁, v₁⟩ := e₀
    rw [omapSorted, List.pairwise_cons] at hs
    by_cases h1 : k = k₁
    · simp only [omapSet, if_pos h1]
      rw [List.countP_cons]
      have hzero : t.countP (fun e => decide (e.1 = k)) = 0 := by
        rw [List.countP_eq_zero]
        intro e he
        have := hs.1 e he
        simp only [decide_eq_true_eq]
        intro hek
        exact lt_irrefl k₁ (by simpa [hek, h1] using this)
      simp [hzero]
    · by_cases h2 : k < k₁
      · simp only [omapSet, if_neg h1, if_pos h2]
        rw [List.countP_cons, List.countP_cons]
        have hzero : t.countP (fun e => decide (e.1 = k)) = 0 := by
          rw [List.countP_eq_zero]
          intro e he
          have := hs.1 e he
          simp only [decide_eq_true_eq]
          intro hek
          rw [← hek] at h2
          exact lt_irrefl _ (h2.trans this)
        simp [hzero, h1, Ne.symm h1]
      · simp only [omapSet, if_neg h1, if_neg h2]
        rw [List.countP_cons]
        have := ih hs.2
        simp [this, Ne.symm h1, h1]

/- ===================== processResource (Shader.cpp 259-360) ===================== -/

/-- The table `of::vk::Shader::mUniforms`: a `std::map<std::string,
BindingInfo>` from uniform-block name to its reflected binding. -/
def UniformMap : Type := List (String × BindingInfo)

/-- What SPIRV-Cross reports for one uniform-block resource, as queried by
`processResource`: the block name, the optional DescriptorSet and Binding
decorations (absent decorations are reported through the decoration mask),
the declared struct size, and the active buffer ranges
`(memberName, offset, range)`. -/
structure SpirvUniformBlock where
  name : String
  decorationSet : Option Nat
  decorationBinding : Option Nat
  declaredSize : Nat
  bufferRanges : List (String × Nat × Nat)
deriving DecidableEq, Repr

/-- Embedding of `of::vk::Shader::processResource` (Shader.cpp 259-360) for
one uniform-block resource reflected from shader stage `shaderStage`.
Returns the updated `mUniforms` table together with the list of reported
errors.  Mirrors the source: the set index defaults to 0 when the decoration
is absent (a warning, not modelled as an error), as does the binding number;
a `VkDescriptorSetLayoutBinding` is built with descriptor type
`UNIFORM_BUFFER_DYNAMIC`, count 1, the current stage's flags and null
immutable samplers; if a block of the same name already exists, mismatching
set or binding is a reported error, and otherwise the existing stage flags
are OR-ed into the new binding; finally `mUniforms[name]`'s fields are
assigned and the member ranges are inserted into the entry's (retained)
member-range map. -/
def processResource (m : UniformMap) (ubo : SpirvUniformBlock) (shaderStage : Nat) :
    UniformMap × List String :=
  let descriptorSet := ubo.decorationSet.getD 0
  let bindingNumber := ubo.decorationBinding.getD 0
  let newBinding0 : VkDescriptorSetLayoutBinding :=
    { binding := bindingNumber
      descriptorType := VK_DESCRIPTOR_TYPE_UNIFORM_BUFFER_DYNAMIC
      descriptorCount := 1
      stageFlags := shaderStage
      pImmutableSamplers := 0 }
  let found := omapLookup m ubo.name
  let merged :=
    match found with
    | some existingBinding =>
      if existingBinding.set ≠ descriptorSet ∨
          existingBinding.binding.binding ≠ bindingNumber then
        (newBinding0, ["Incompatible bindings between shader stages: " ++ ubo.name])
      else
        ({ newBinding0 with
            stageFlags := Nat.lor shaderStage existingBinding.binding.stageFlags }, ([] : List String))
    | none => (newBinding0, [])
  let oldRanges :=
    match found with
    | some existingBinding => existingBinding.memberRanges
    | none => []
  let newRanges := ubo.bufferRanges.foldl (fun acc r => omapSet acc r.1 r.2) oldRanges
  (omapSet m ubo.name
    { set := descriptorSet
      binding := merged.1
      size := ubo.declaredSize
      name := ubo.name
      memberRanges := newRanges }, merged.2)

/-- C3: when a uniform block with the same name, set, binding, descriptor
type and size has already been reflected from another shader stage,
`processResource` reports no error and produces a single merged binding (no
duplicate entry under that name) whose stage-visibility mask is the bitwise
OR of the two stages' masks. -/
theorem processResource_merges_stages (m : UniformMap) (ubo : SpirvUniformBlock)
    (stage1 stage2 : Nat) (existing : BindingInfo)
    (hsorted : omapSorted m)
    (hfound : omapLookup m ubo.name = some existing)
    (hset : existing.set = ubo.decorationSet.getD 0)
    (hbind : existing.binding.binding = ubo.decorationBinding.getD 0)
    (htype : existing.binding.descriptorType = VK_DESCRIPTOR_TYPE_UNIFORM_BUFFER_DYNAMIC)
    (hsize : existing.size = ubo.declaredSize)
    (hstage : existing.binding.stageFlags = stage1) :
    (processResource m ubo stage2).2 = [] ∧
    (processResource m ubo stage2).1.countP (fun e => decide (e.1 = ubo.name)) = 1 ∧
    ∃ bi, omapLookup (processResource m ubo stage2).1 ubo.name = some bi ∧
      bi.binding.stageFlags = Nat.lor stage2 stage1 ∧
      bi.set = existing.set ∧
      bi.binding.binding = existing.binding.binding ∧
      bi.binding.descriptorType = existing.binding.descriptorType ∧
      bi.size = existing.size := by
  have hcond : ¬(existing.set ≠ ubo.decorationSet.getD 0 ∨
      existing.binding.binding ≠ ubo.decorationBinding.getD 0) := by
    push_neg
    exact ⟨hset, hbind⟩
  constructor
  · simp only [processResource, hfound, if_neg hcond]
  constructor
  · exact omapSet_countP_key m ubo.name _ hsorted
  · simp only [processResource, hfound, if_neg hcond]
    refine ⟨_, omapLookup_omapSet_self _ _ _, ?_, ?_, ?_, ?_, ?_⟩
    · simp [hstage]
    · simp [hset]
    · simp [hbind]
    · simp [htype]
    · simp [hsize]

def uniformMapC3 : UniformMap :=
  [("DefaultMatrices",
    { set := 0
      binding := { binding := 0, descriptorType := VK_DESCRIPTOR_TYPE_UNIFORM_BUFFER_DYNAMIC,
                   descriptorCount := 1, stageFlags := VK_SHADER_STAGE_VERTEX_BIT,
                   pImmutableSamplers := 0 }
      size := 192
      name := "DefaultMatrices"
      memberRanges := [("modelMatrix", 64, 64), ("projectionMatrix", 0, 64), ("viewMatrix", 128, 64)] })]

def uboC3 : SpirvUniformBlock :=
  { name := "DefaultMatrices"
    decorationSet := some 0
    decorationBinding := some 0
    declaredSize := 192
    bufferRanges := [("projectionMatrix", 0, 64)] }

/-- Witness for C3: reflecting the same uniform block a second time from the
fragment stage merges into the existing vertex-stage entry with OR-ed stage
flags (1 ||| 16 = 17) and no error. -/
theorem processResource_merges_stages_witness :
    (processResource uniformMapC3 uboC3 VK_SHADER_STAGE_FRAGMENT_BIT).2 = [] ∧
    (processResource uniformMapC3 uboC3 VK_SHADER_STAGE_FRAGMENT_BIT).1.countP
      (fun e => decide (e.1 = uboC3.name)) = 1 ∧
    ∃ bi, omapLookup (processResource uniformMapC3 uboC3 VK_SHADER_STAGE_FRAGMENT_BIT).1
        uboC3.name = some bi ∧
      bi.binding.stageFlags =
        Nat.lor VK_SHADER_STAGE_FRAGMENT_BIT VK_SHADER_STAGE_VERTEX_BIT ∧
      bi.set = 0 ∧ bi.binding.binding = 0 ∧
      bi.binding.descriptorType = VK_DESCRIPTOR_TYPE_UNIFORM_BUFFER_DYNAMIC ∧
      bi.size = 192 :=
  processResource_merges_stages uniformMapC3 uboC3
    VK_SHADER_STAGE_VERTEX_BIT VK_SHADER_STAGE_FRAGMENT_BIT _
    (by constructor <;> simp) rfl rfl rfl rfl rfl rfl

/- ===================== isSpirCodeDirty and setup (Shader.cpp 20-67) ===================== -/

/-- Embedding of `of::vk::Shader::isSpirCodeDirty` (Shader.cpp 54-67).
`mSpvHash` maps a shader stage to the 64-bit SpookyHash of the stage's last
loaded SPIR-V code.  When the stage has no stored hash the code is dirty and
the hash is stored; otherwise the stored hash is compared (and, as in the
source, not updated). -/
def isSpirCodeDirty (mSpvHash : List (Nat × Nat)) (shaderStage : Nat)
    (spirCode : List Nat) : Bool × List (Nat × Nat) :=
  let spirvHash := spookyHash64 spirCode 0
  match omapLookup mSpvHash shaderStage with
  | none => (true, omapSet mSpvHash shaderStage spirvHash)
  | some h => (h != spirvHash, mSpvHash)

/-- The loop body of `of::vk::Shader::setup` (Shader.cpp 23-44) for one
existing source file: accumulator is (mSpvHash, rebuilt modules,
shaderDirty). -/
def shaderSetupStep (acc : List (Nat × Nat) × List Nat × Bool)
    (source : Nat × List Nat) : List (Nat × Nat) × List Nat × Bool :=
  let dirty := isSpirCodeDirty acc.1 source.1 source.2
  (dirty.2, if dirty.1 then acc.2.1 ++ [source.1] else acc.2.1, acc.2.2 || dirty.1)

/-- The observable outcome of one `of::vk::Shader::setup` run: the updated
per-stage hash table, the stages whose `VkShaderModule` was (re)built through
`createVkShaderModule`, and whether `reflect()` and `buildSetLayouts()` ran. -/
structure ShaderSetupResult where
  mSpvHash : List (Nat × Nat)
  rebuiltModules : List Nat
  reflected : Bool
  setLayoutsBuilt : Bool
deriving DecidableEq, Repr

/-- Embedding of `of::vk::Shader::setup` (Shader.cpp 20-50).  `sources` is
the list of (shader stage, loaded SPIR-V code) pairs for the source files
that exist (a missing file is skipped by the source before any hashing
happens).  Each source's dirtiness is evaluated; a dirty stage gets its
module rebuilt, and if any stage was dirty, `reflect()` and
`buildSetLayouts()` both run once at the end. -/
def shaderSetup (mSpvHash0 : List (Nat × Nat)) (sources : List (Nat × List Nat)) :
    ShaderSetupResult :=
  let final := sources.foldl shaderSetupStep (mSpvHash0, [], false)
  { mSpvHash := final.1
    rebuiltModules := final.2.1
    reflected := final.2.2
    setLayoutsBuilt := final.2.2 }

/-- C4: if the content hash of every newly loaded shader binary equals the
hash stored for its stage at the last load, then `isSpirCodeDirty` returns
false for each stage (leaving the hash table untouched) and the whole
`setup` run rebuilds no shader module, performs no re-reflection and no
set-layout rebuild. -/
theorem shaderSetup_clean_when_hashes_unchanged (mSpvHash0 : List (Nat × Nat))
    (sources : List (Nat × List Nat))
    (hclean : ∀ sc ∈ sources, omapLookup mSpvHash0 sc.1 = some (spookyHash64 sc.2 0)) :
    (∀ sc ∈ sources, (isSpirCodeDirty mSpvHash0 sc.1 sc.2).1 = false ∧
        (isSpirCodeDirty mSpvHash0 sc.1 sc.2).2 = mSpvHash0) ∧
    shaderSetup mSpvHash0 sources =
      { mSpvHash := mSpvHash0, rebuiltModules := [], reflected := false,
        setLayoutsBuilt := false } := by
  have hdirty : ∀ sc ∈ sources, isSpirCodeDirty mSpvHash0 sc.1 sc.2 = (false, mSpvHash0) := by
    intro sc hmem
    simp only [isSpirCodeDirty, hclean sc hmem]
    simp
  have hfold : ∀ (l : List (Nat × List Nat)),
      (∀ sc ∈ l, isSpirCodeDirty mSpvHash0 sc.1 sc.2 = (false, mSpvHash0)) →
      l.foldl shaderSetupStep (mSpvHash0, [], false) = (mSpvHash0, [], false) := by
    intro l
    induction l with
    | nil => intro _; rfl
    | cons sc rest ih =>
      intro hall
      rw [List.foldl_cons]
      have hstep : shaderSetupStep (mSpvHash0, [], false) sc = (mSpvHash0, [], false) := by
        simp [shaderSetupStep, hall sc (List.mem_cons_self sc rest)]
      rw [hstep]
      exact ih fun x hx => hall x (List.mem_cons_of_mem sc hx)
  constructor
  · intro sc hmem
    rw [hdirty sc hmem]
    exact ⟨rfl, rfl⟩
  · unfold shaderSetup
    rw [hfold sources hdirty]

def spvHashTableW : List (Nat × Nat) :=
  [(VK_SHADER_STAGE_VERTEX_BIT, spookyHash64 [119734787, 65536, 524295] 0),
   (VK_SHADER_STAGE_FRAGMENT_BIT, spookyHash64 [119734787, 65536, 524296] 0)]

def shaderSourcesW : List (Nat × List Nat) :=
  [(VK_SHADER_STAGE_VERTEX_BIT, [119734787, 65536, 524295]),
   (VK_SHADER_STAGE_FRAGMENT_BIT, [119734787, 65536, 524296])]

/-- Witness for C4: reloading a vertex/fragment pair whose binaries hash to
the stored values rebuilds nothing and triggers no reflection. -/
theorem shaderSetup_clean_when_hashes_unchanged_witness :
    (∀ sc ∈ shaderSourcesW, (isSpirCodeDirty spvHashTableW sc.1 sc.2).1 = false ∧
        (isSpirCodeDirty spvHashTableW sc.1 sc.2).2 = spvHashTableW) ∧
    shaderSetup spvHashTableW shaderSourcesW =
      { mSpvHash := spvHashTableW, rebuiltModules := [], reflected := false,
        setLayoutsBuilt := false } :=
  shaderSetup_clean_when_hashes_unchanged spvHashTableW shaderSourcesW (by decide)

/- ===================== buildSetLayouts (Shader.cpp 207-255), full pipeline ===================== -/

/-- Model of `bindingInfoMap[binding.second.set].push_back(binding.second)`
(Shader.cpp 210-213): push a binding onto the vector stored in the
`std::map<uint32_t, vector<BindingInfo>>` under the binding's set index,
keeping the map's keys sorted ascending. -/
def bindingInfoMapPush : List (Nat × List BindingInfo) → Nat → BindingInfo →
    List (Nat × List BindingInfo)
  | [], s, b => [(s, [b])]
  | (s₁, v) :: rest, s, b =>
    if s = s₁ then (s₁, v ++ [b]) :: rest
    else if s < s₁ then (s, [b]) :: (s₁, v) :: rest
    else (s₁, v) :: bindingInfoMapPush rest s b

/-- The grouping step of `buildSetLayouts` (Shader.cpp 210-213): iterate
`mUniforms` in its (name-sorted) order and group the bindings by set index. -/
def groupBySet (m : UniformMap) : List (Nat × List BindingInfo) :=
  m.foldl (fun acc e => bindingInfoMapPush acc e.2.set e.2) []

/-- The layout-creation loop of `buildSetLayouts` (Shader.cpp 226-253) over
the grouped-and-sorted sets, carrying the counter `i`.  For every set whose
index differs from the counter an error naming the expected (missing) set
index `i` is reported — and the loop then continues, still building a
`SetLayout` (with its content-hash key) for the set. -/
def buildSetLayoutsLoop : Nat → List (Nat × List BindingInfo) → List Nat × List SetLayout
  | _, [] => ([], [])
  | i, (setNumber, v) :: rest =>
    let tail := buildSetLayoutsLoop (i + 1) rest
    ((if setNumber ≠ i then [i] else []) ++ tail.1,
      { bindings := v, key := calculateHash v } :: tail.2)

/-- Embedding of `of::vk::Shader::buildSetLayouts` (Shader.cpp 207-255):
group the reflected uniforms by set index, sort each set's bindings by
binding number ascending, then walk the sets in ascending set order building
one `SetLayout` (with its hash key) per set, reporting an error for every
missing (non-contiguous) set index.  Returns (reported missing indices,
built layouts). -/
def buildSetLayouts (m : UniformMap) : List Nat × List SetLayout :=
  let grouped := (groupBySet m).map fun sv => (sv.1, sortBindings sv.2)
  buildSetLayoutsLoop 0 grouped

def bindingSet0 : BindingInfo :=
  { set := 0
    binding := { binding := 0, descriptorType := VK_DESCRIPTOR_TYPE_UNIFORM_BUFFER_DYNAMIC,
                 descriptorCount := 1, stageFlags := VK_SHADER_STAGE_VERTEX_BIT,
                 pImmutableSamplers := 0 }
    size := 192
    name := "DefaultMatrices"
    memberRanges := [] }

def bindingSet2 : BindingInfo :=
  { set := 2
    binding := { binding := 0, descriptorType := VK_DESCRIPTOR_TYPE_UNIFORM_BUFFER_DYNAMIC,
                 descriptorCount := 1, stageFlags := VK_SHADER_STAGE_FRAGMENT_BIT,
                 pImmutableSamplers := 0 }
    size := 16
    name := "Style"
    memberRanges := [] }

/-- The `mUniforms` table of a shader whose uniform blocks live in descriptor
sets 0 and 2 with no set 1. -/
def uniformMapSparse : UniformMap :=
  [("DefaultMatrices", bindingSet0), ("Style", bindingSet2)]

/-- Counterexample for C5 as stated: with descriptor sets {0, 2},
`buildSetLayouts` reports the sparse-set error naming the missing set index 1
— but construction is not aborted: the loop continues and still builds a
`SetLayout` for both populated sets (two layouts, their keys pushed and
stored).  The source only calls `ofLogError()` and falls through. -/
theorem buildSetLayouts_sparse_no_abort_counterexample :
    (buildSetLayouts uniformMapSparse).1 = [1] ∧
    (buildSetLayouts uniformMapSparse).2.length = 2 ∧
    (buildSetLayouts uniformMapSparse).2.map SetLayout.bindings
      = [[bindingSet0], [bindingSet2]] := by
  refine ⟨?_, ?_, ?_⟩ <;> rfl

/-- C5 (amended): when the descriptor set indices observed across a shader's
uniform blocks are not contiguous starting at 0, an error naming the missing
set index is reported (for sets {0, 2} the reported index is 1) — but
initialization is not aborted: `buildSetLayouts` continues past the error and
still builds one `SetLayout` for every populated set index. -/
theorem buildSetLayouts_sparse_reports_and_continues (m : UniformMap)
    (i s : Nat) (v : List BindingInfo)
    (hget : (groupBySet m).get? i = some (s, v))
    (hne : s ≠ i) :
    i ∈ (buildSetLayouts m).1 ∧
    (buildSetLayouts m).2.length = (groupBySet m).length := by
  have hlen : ∀ (g : List (Nat × List BindingInfo)) (j : Nat),
      (buildSetLayoutsLoop j g).2.length = g.length := by
    intro g
    induction g with
    | nil => intro j; rfl
    | cons e rest ih =>
      intro j
      obtain ⟨s₀, v₀⟩ := e
      simp [buildSetLayoutsLoop, ih]
  have hmem : ∀ (g : List (Nat × List BindingInfo)) (j k s₀ : Nat) (v₀ : List BindingInfo),
      g.get? k = some (s₀, v₀) → s₀ ≠ j + k → (j + k) ∈ (buildSetLayoutsLoop j g).1 := by
    intro g
    induction g with
    | nil => intro j k s₀ v₀ h; simp at h
    | cons e rest ih =>
      intro j k s₀ v₀ h hne₀
      obtain ⟨s₁, v₁⟩ := e
      cases k with
      | zero =>
        simp only [List.get?_cons_zero, Option.some.injEq] at h
        have hs : s₁ = s₀ := congrArg Prod.fst h
        simp only [buildSetLayoutsLoop, Nat.add_zero] at hne₀ ⊢
        rw [hs, if_pos hne₀]
        exact List.mem_cons_self _ _
      | succ k₀ =>
        simp only [List.get?_cons_succ] at h
        have := ih (j + 1) k₀ s₀ v₀ h (by omega)
        simp only [buildSetLayoutsLoop]
        have harith : j + 1 + k₀ = j + (k₀ + 1) := by omega
        rw [harith] at this
        exact List.mem_append_right _ this
  constructor
  · unfold buildSetLayouts
    have hget2 : ((groupBySet m).map fun sv => (sv.1, sortBindings sv.2)).get? i
        = some (s, sortBindings v) := by
      rw [List.get?_map, hget]
      rfl
    have := hmem _ 0 i s (sortBindings v) hget2 (by omega)
    simpa using this
  · unfold buildSetLayouts
    rw [hlen]
    simp

/-- Witness for the amended C5 at the concrete sets {0, 2}: index 1 is
reported missing while both layouts are still built. -/
theorem buildSetLayouts_sparse_reports_and_continues_witness :
    1 ∈ (buildSetLayouts uniformMapSparse).1 ∧
    (buildSetLayouts uniformMapSparse).2.length = (groupBySet uniformMapSparse).length :=
  buildSetLayouts_sparse_reports_and_continues uniformMapSparse 1 2 [bindingSet2]
    (by decide) (by decide)

/- ===================== setupDescriptorPool (ofVkRenderer.cpp 136-187) ===================== -/

/-- Model of the per-binding counting step in `setupDescriptorPool`
(ofVkRenderer.cpp 153-163): in the `std::map<VkDescriptorType, uint32_t>`,
a descriptor type seen for the first time gets count 1, otherwise its count
is incremented.  Keys stay sorted ascending as in `std::map`. -/
def descriptorTypeIncr : List (Nat × Nat) → Nat → List (Nat × Nat)
  | [], t => [(t, 1)]
  | (t₁, c) :: rest, t =>
    if t = t₁ then (t₁, c + 1) :: rest
    else if t < t₁ then (t, 1) :: (t₁, c) :: rest
    else (t₁, c) :: descriptorTypeIncr rest t

/-- The count recorded for descriptor type `t` (0 when absent), i.e. what
`descriptorTypes[t]` would read back. -/
def descriptorTypeLookup (m : List (Nat × Nat)) (t : Nat) : Nat :=
  match m with
  | [] => 0
  | (t₁, c) :: rest => if t = t₁ then c else descriptorTypeLookup rest t

/-- Embedding of `ofVkRenderer::setupDescriptorPool` (ofVkRenderer.cpp
136-187): every binding of every known shader bumps the count of its
descriptor type; the resulting (type, count) pairs become the pool sizes
`typeCounts`, and `maxSets` accumulates the sum of all per-type counts.
Shaders are given by their binding tables (`Shader::getBindings`). -/
def setupDescriptorPool (shaders : List UniformMap) : List (Nat × Nat) × Nat :=
  let descriptorTypes := shaders.foldl
    (fun acc s => s.foldl
      (fun acc2 b => descriptorTypeIncr acc2 b.2.binding.descriptorType) acc) []
  (descriptorTypes, (descriptorTypes.map fun tc => tc.2).sum)


theorem descriptorTypeIncr_mem (m : List (Nat × Nat)) (t : Nat) :
    ∀ e ∈ descriptorTypeIncr m t, e.1 = t ∨ e ∈ m := by
  induction m with
  | nil => simp [descriptorTypeIncr]
  | cons e₀ rest ih =>
    obtain ⟨t₁, c⟩ := e₀
    intro e he
    by_cases h1 : t = t₁
    · simp only [descriptorTypeIncr, if_pos h1] at he
      rcases List.mem_cons.mp he with h | h
      · exact Or.inl (by rw [h]; exact h1.symm)
      · exact Or.inr (List.mem_cons_of_mem _ h)
    · by_cases h2 : t < t₁
      · simp only [descriptorTypeIncr, if_neg h1, if_pos h2] at he
        rcases List.mem_cons.mp he with h | h
        · exact Or.inl (by rw [h])
        · exact Or.inr h
      · simp only [descriptorTypeIncr, if_neg h1, if_neg h2] at he
        rcases List.mem_cons.mp he with h | h
        · exact Or.inr (h ▸ List.mem_cons_self _ _)
        · rcases ih e h with h3 | h3
          · exact Or.inl h3
          · exact Or.inr (List.mem_cons_of_mem _ h3)

theorem descriptorTypeIncr_sorted (m : List (Nat × Nat)) (t : Nat)
    (hs : omapSorted m) : omapSorted (descriptorTypeIncr m t) := by
  induction m with
  | nil => simp [descriptorTypeIncr, omapSorted]
  | cons e rest ih =>
    obtain ⟨t₁, c⟩ := e
    rw [omapSorted, List.pairwise_cons] at hs
    by_cases h1 : t = t₁
    · simp only [descriptorTypeIncr, if_pos h1]
      rw [omapSorted, List.pairwise_cons]
      exact ⟨hs.1, hs.2⟩
    · by_cases h2 : t < t₁
      · simp only [descriptorTypeIncr, if_neg h1, if_pos h2]
        rw [omapSorted, List.pairwise_cons]
        refine ⟨?_, List.pairwise_cons.mpr ⟨hs.1, hs.2⟩⟩
        intro e he
        rcases List.mem_cons.mp he with h | h
        · rw [h]; exact h2
        · exact h2.trans (hs.1 e h)
      · simp only [descriptorTypeIncr, if_neg h1, if_neg h2]
        rw [omapSorted, List.pairwise_cons]
        refine ⟨?_, ih hs.2⟩
        intro e he
        rcases descriptorTypeIncr_mem rest t e he with h | h
        · rw [h]; omega
        · exact hs.1 e h

theorem descriptorTypeLookup_eq_zero (m : List (Nat × Nat)) (q : Nat)
    (hall : ∀ e ∈ m, q ≠ e.1) : descriptorTypeLookup m q = 0 := by
  induction m with
  | nil => rfl
  | cons e₀ rest ih =>
    simp only [descriptorTypeLookup, if_neg (hall e₀ (List.mem_cons_self e₀ rest))]
    exact ih fun e he => hall e (List.mem_cons_of_mem e₀ he)

theorem descriptorTypeLookup_incr (m : List (Nat × Nat)) (t q : Nat)
    (hs : omapSorted m) :
    descriptorTypeLookup (descriptorTypeIncr m t) q
      = descriptorTypeLookup m q + (if q = t then 1 else 0) := by
  induction m with
  | nil =>
    by_cases h : q = t <;> simp [descriptorTypeIncr, descriptorTypeLookup, h]
  | cons e rest ih =>
    obtain ⟨t₁, c⟩ := e
    rw [omapSorted, List.pairwise_cons] at hs
    by_cases h1 : t = t₁
    · simp only [descriptorTypeIncr, if_pos h1]
      by_cases hq : q = t₁
      · subst h1
        simp [descriptorTypeLookup, hq]
      · have hqt : q ≠ t := fun h => hq (h.trans h1)
        simp [descriptorTypeLookup, hq, hqt]
    · by_cases h2 : t < t₁
      · simp only [descriptorTypeIncr, if_neg h1, if_pos h2]
        by_cases hq : q = t
        · subst hq
          have hlzero : descriptorTypeLookup rest q = 0 := by
            apply descriptorTypeLookup_eq_zero
            intro e he
            have h3 : t₁ < e.1 := hs.1 e he
            omega
          simp [descriptorTypeLookup, h1, hlzero]
        · simp [descriptorTypeLookup, hq]
      · simp only [descriptorTypeIncr, if_neg h1, if_neg h2]
        by_cases hq : q = t₁
        · have hqt : q ≠ t := fun h => h1 (h.symm.trans hq)
          simp [descriptorTypeLookup, hq, hqt, Ne.symm h1]
        · simp only [descriptorTypeLookup, if_neg hq]
          rw [ih hs.2]

/-- Folding the counting step over a list of bindings adds, for every
descriptor type, exactly the number of bindings of that type. -/
theorem descriptorTypeFold_lookup (q : Nat) :
    ∀ (bs : List (String × BindingInfo)) (m : List (Nat × Nat)), omapSorted m →
      descriptorTypeLookup
          (bs.foldl (fun acc2 b => descriptorTypeIncr acc2 b.2.binding.descriptorType) m) q
        = descriptorTypeLookup m q
          + bs.countP (fun b => decide (b.2.binding.descriptorType = q)) := by
  intro bs
  induction bs with
  | nil => intro m _; simp
  | cons b rest ih =>
    intro m hm
    rw [List.foldl_cons, List.countP_cons,
      ih _ (descriptorTypeIncr_sorted m _ hm),
      descriptorTypeLookup_incr m _ q hm]
    by_cases h : b.2.binding.descriptorType = q
    · simp [h]
      omega
    · simp [h, Ne.symm h]

/-- Folding the counting step preserves sortedness of the type map. -/
theorem descriptorTypeFold_sorted :
    ∀ (bs : List (String × BindingInfo)) (m : List (Nat × Nat)), omapSorted m →
      omapSorted
        (bs.foldl (fun acc2 b => descriptorTypeIncr acc2 b.2.binding.descriptorType) m) := by
  intro bs
  induction bs with
  | nil => intro m hm; exact hm
  | cons b rest ih =>
    intro m hm
    exact ih _ (descriptorTypeIncr_sorted m _ hm)

/-- Folding the counting step adds the number of processed bindings to the
sum of all per-type counts. -/
theorem descriptorTypeFold_sum :
    ∀ (bs : List (String × BindingInfo)) (m : List (Nat × Nat)),
      ((bs.foldl (fun acc2 b => descriptorTypeIncr acc2 b.2.binding.descriptorType) m).map
          fun tc => tc.2).sum
        = ((m.map fun tc => tc.2).sum) + bs.length := by
  have hone : ∀ (m : List (Nat × Nat)) (t : Nat),
      ((descriptorTypeIncr m t).map fun tc => tc.2).sum
        = ((m.map fun tc => tc.2).sum) + 1 := by
    intro m t
    induction m with
    | nil => rfl
    | cons e rest ih =>
      obtain ⟨t₁, c⟩ := e
      by_cases h1 : t = t₁
      · simp [descriptorTypeIncr, if_pos h1]
        omega
      · by_cases h2 : t < t₁
        · simp [descriptorTypeIncr, if_neg h1, if_pos h2]
          omega
        · simp [descriptorTypeIncr, if_neg h1, if_neg h2, ih]
          omega
  intro bs
  induction bs with
  | nil => intro m; simp
  | cons b rest ih =>
    intro m
    rw [List.foldl_cons, ih, hone]
    simp [List.length_cons]
    omega

/-- C6: descriptor pool sizing aggregates, across every known shader's
bindings, one count per descriptor type — each binding contributing exactly 1
to its type's count — uses those counts as the pool sizes (`typeCounts`), and
sets the pool's total set capacity `maxSets` to the sum of all per-type
counts, which therefore equals the total number of bindings across all
shaders. -/
theorem setupDescriptorPool_counts (shaders : List UniformMap) :
    (∀ t, descriptorTypeLookup (setupDescriptorPool shaders).1 t
        = (shaders.map fun s =>
            s.countP fun b => decide (b.2.binding.descriptorType = t)).sum) ∧
    (setupDescriptorPool shaders).2
      = ((setupDescriptorPool shaders).1.map fun tc => tc.2).sum ∧
    (setupDescriptorPool shaders).2 = (shaders.map List.length).sum := by
  have hlook : ∀ (q : Nat) (ls : List UniformMap) (m : List (Nat × Nat)), omapSorted m →
      descriptorTypeLookup
          (ls.foldl (fun acc s => s.foldl
            (fun acc2 b => descriptorTypeIncr acc2 b.2.binding.descriptorType) acc) m) q
        = descriptorTypeLookup m q
          + (ls.map fun s =>
              s.countP fun b => decide (b.2.binding.descriptorType = q)).sum := by
    intro q ls
    induction ls with
    | nil => intro m _; simp
    | cons s rest ih =>
      intro m hm
      rw [List.foldl_cons, ih _ (descriptorTypeFold_sorted s m hm),
        descriptorTypeFold_lookup q s m hm]
      simp [Nat.add_assoc]
  have hsum : ∀ (ls : List UniformMap) (m : List (Nat × Nat)),
      (((ls.foldl (fun acc s => s.foldl
          (fun acc2 b => descriptorTypeIncr acc2 b.2.binding.descriptorType) acc) m)).map
        fun tc => tc.2).sum
        = ((m.map fun tc => tc.2).sum) + (ls.map List.length).sum := by
    intro ls
    induction ls with
    | nil => intro m; simp
    | cons s rest ih =>
      intro m
      rw [List.foldl_cons, ih, descriptorTypeFold_sum]
      simp [Nat.add_assoc]
  refine ⟨?_, rfl, ?_⟩
  · intro t
    have := hlook t shaders [] (by simp [omapSorted])
    simpa [setupDescriptorPool, descriptorTypeLookup] using this
  · have := hsum shaders []
    simpa [setupDescriptorPool] using this

/- ===================== finishRender (ofVkRenderer.cpp 762-893) ===================== -/

/-- The renderer's two frame-ordering semaphores (`createSemaphores`,
ofVkRenderer.cpp 246-260). -/
inductive Sem where
  | presentComplete
  | renderComplete
deriving DecidableEq, Repr

/-- One of the renderer's command buffers, as referenced by queue
submissions. -/
inductive CmdBuf where
  | drawCmdBuffer (imageIndex : Nat)
  | prePresentCommandBuffer
  | postPresentCommandBuffer
deriving DecidableEq, Repr

/-- A queue-level operation recorded against the graphics queue. -/
inductive QueueOp where
  | submit (waitSemaphores : List Sem) (waitDstStageMask : List Nat)
      (commandBuffers : List CmdBuf) (signalSemaphores : List Sem)
  | present (imageIndex : Nat) (waitSemaphores : List Sem)
  | waitIdle
deriving DecidableEq, Repr

/-- Embedding of `ofVkRenderer::finishRender` (ofVkRenderer.cpp 762-893) as
the sequence of operations it submits to the graphics queue for the frame
whose acquired swapchain image index is `imageIndex`: the draw command buffer
is submitted waiting on `presentComplete` at stage `BOTTOM_OF_PIPE` and
signalling `renderComplete`; the pre-present layout-transition buffer is
submitted; the image is presented waiting on `renderComplete`; the
post-present transition buffer is submitted; finally the queue is drained. -/
def finishRender (imageIndex : Nat) : List QueueOp :=
  [QueueOp.submit [Sem.presentComplete] [VK_PIPELINE_STAGE_BOTTOM_OF_PIPE_BIT]
      [CmdBuf.drawCmdBuffer imageIndex] [Sem.renderComplete],
   QueueOp.submit [] [] [CmdBuf.prePresentCommandBuffer] [],
   QueueOp.present imageIndex [Sem.renderComplete],
   QueueOp.submit [] [] [CmdBuf.postPresentCommandBuffer] [],
   QueueOp.waitIdle]

/-- C7: on every frame, the draw command buffer is submitted to the graphics
queue with `waitSemaphores = [presentComplete]` at wait stage
`BOTTOM_OF_PIPE` and `signalSemaphores = [renderComplete]` (the first queue
operation of `finishRender`), and the subsequent presentation of the acquired
image (the third queue operation, after that submission) waits on
`renderComplete`. -/
theorem finishRender_semaphore_protocol (imageIndex : Nat) :
    (finishRender imageIndex).get? 0
      = some (QueueOp.submit [Sem.presentComplete]
          [VK_PIPELINE_STAGE_BOTTOM_OF_PIPE_BIT]
          [CmdBuf.drawCmdBuffer imageIndex] [Sem.renderComplete]) ∧
    (finishRender imageIndex).get? 2
      = some (QueueOp.present imageIndex [Sem.renderComplete]) := by
  exact ⟨rfl, rfl⟩

/- ===================== querySurfaceCapabilities (ofVkRenderer.cpp 264-302) ===================== -/

/-- Embedding of `VkSurfaceFormatKHR`. -/
structure VkSurfaceFormatKHR where
  format : Nat
  colorSpace : Nat
deriving DecidableEq, Repr

/-- Embedding of the format-selection logic of
`ofVkRenderer::querySurfaceCapabilities` (ofVkRenderer.cpp 264-302): an empty
format list is a fatal error (`ofExit(1)`, modelled as `none`); a list whose
single entry has format `VK_FORMAT_UNDEFINED` yields the fallback
`VK_FORMAT_B8G8R8A8_UNORM`; otherwise the first listed format is chosen.  The
color space is always taken from the first entry. -/
def querySurfaceFormat (surfaceFormats : List VkSurfaceFormatKHR) :
    Option VkSurfaceFormatKHR :=
  match surfaceFormats with
  | [] => none
  | f₀ :: _ =>
    if surfaceFormats.length = 1 ∧ f₀.format = VK_FORMAT_UNDEFINED then
      some { format := VK_FORMAT_B8G8R8A8_UNORM, colorSpace := f₀.colorSpace }
    else
      some { format := f₀.format, colorSpace := f₀.colorSpace }

/-- C8: if the surface's supported-format list contains exactly one entry
whose format is `UNDEFINED`, the chosen color format is the documented
fallback `B8G8R8A8_UNORM` — not a construction failure; in every other
non-empty case the first listed format is chosen. -/
theorem querySurfaceFormat_fallback_or_first (surfaceFormats : List VkSurfaceFormatKHR)
    (f₀ : VkSurfaceFormatKHR) (rest : List VkSurfaceFormatKHR)
    (hcons : surfaceFormats = f₀ :: rest) :
    (surfaceFormats.length = 1 → f₀.format = VK_FORMAT_UNDEFINED →
      querySurfaceFormat surfaceFormats
        = some { format := VK_FORMAT_B8G8R8A8_UNORM, colorSpace := f₀.colorSpace }) ∧
    (¬(surfaceFormats.length = 1 ∧ f₀.format = VK_FORMAT_UNDEFINED) →
      querySurfaceFormat surfaceFormats
        = some { format := f₀.format, colorSpace := f₀.colorSpace }) ∧
    querySurfaceFormat surfaceFormats ≠ none := by
  subst hcons
  refine ⟨?_, ?_, ?_⟩
  · intro hlen hundef
    simp [querySurfaceFormat, hlen, hundef]
  · intro hnot
    simp only [querySurfaceFormat, if_neg hnot]
  · by_cases h : (f₀ :: rest).length = 1 ∧ f₀.format = VK_FORMAT_UNDEFINED
    · simp [querySurfaceFormat, h]
    · simp only [querySurfaceFormat, if_neg h]
      exact Option.some_ne_none _

/-- Witness for C8, both branches: a single `UNDEFINED` entry maps to the
BGRA8-unorm fallback, and a two-entry list keeps its first format. -/
theorem querySurfaceFormat_fallback_or_first_witness :
    querySurfaceFormat [{ format := VK_FORMAT_UNDEFINED, colorSpace := 0 }]
      = some { format := VK_FORMAT_B8G8R8A8_UNORM, colorSpace := 0 } ∧
    querySurfaceFormat [{ format := 50, colorSpace := 0 }, { format := 44, colorSpace := 0 }]
      = some { format := 50, colorSpace := 0 } :=
  ⟨(querySurfaceFormat_fallback_or_first _ _ [] rfl).1 rfl rfl,
   (querySurfaceFormat_fallback_or_first _ _ [{ format := 44, colorSpace := 0 }] rfl).2.1
     (by decide)⟩

/- ===================== draw (ofVkRenderer.cpp 897-959) ===================== -/

/-- The mesh data `ofVkRenderer::draw` consumes: a vertex count
(`getNumVertices`) and the index list (`getNumIndices` is its length; the
mesh has index data iff the list is non-empty). -/
structure OfMesh where
  numVertices : Nat
  indices : List Nat
deriving DecidableEq, Repr

/-- Modelled from the spec: `of::vk::Context::storeMesh` (the `Context`
implementation is not part of the sources under study; its callers and the
spec describe its contract).  It stores the mesh's vertex and index data in
the per-frame dynamic memory and returns the buffer offsets: one offset list
for vertex attribute data, and an index-offset list that is empty exactly
when the mesh has no index data. -/
def storeMesh (mesh : OfMesh) : List Nat × List Nat :=
  ([0], if mesh.indices.isEmpty then [] else [0])

/-- A command recorded into the draw command buffer by `ofVkRenderer::draw`. -/
inductive DrawOp where
  | bindDescriptorSets (firstSet setCount dynamicOffsetCount : Nat)
  | bindPipeline
  | bindVertexBuffers (firstBinding bindingCount : Nat)
  | cmdDraw (vertexCount instanceCount firstVertex firstInstance : Nat)
  | bindIndexBuffer (offset : Nat)
  | cmdDrawIndexed (indexCount instanceCount firstIndex vertexOffset firstInstance : Nat)
deriving DecidableEq, Repr

/-- Embedding of `ofVkRenderer::draw` (ofVkRenderer.cpp 897-959) as the list
of commands recorded into the current draw command buffer: bind the
descriptor sets (one set, one dynamic offset), bind the solid pipeline, store
the mesh and bind one vertex buffer per returned vertex offset; then, if the
mesh produced no index offsets, record `vkCmdDraw` over the mesh's vertex
count, else bind the index buffer and record `vkCmdDrawIndexed` over the
mesh's index count. -/
def rendererDraw (mesh : OfMesh) : List DrawOp :=
  let offsets := storeMesh mesh
  [DrawOp.bindDescriptorSets 0 1 1,
   DrawOp.bindPipeline,
   DrawOp.bindVertexBuffers 0 offsets.1.length] ++
  (if offsets.2.isEmpty then
    [DrawOp.cmdDraw mesh.numVertices 1 0 1]
  else
    [DrawOp.bindIndexBuffer (offsets.2.headD 0),
     DrawOp.cmdDrawIndexed mesh.indices.length 1 0 0 1])

/-- Is this command one of the two draw calls? -/
def isDrawCall : DrawOp → Bool
  | DrawOp.cmdDraw _ _ _ _ => true
  | DrawOp.cmdDrawIndexed _ _ _ _ _ => true
  | _ => false

/-- C9: a mesh with no index data produces exactly one non-indexed draw call
whose vertex count is the mesh's vertex count (and no indexed draw); a mesh
with index data produces exactly one indexed draw call covering exactly the
mesh's index count (and no non-indexed draw). -/
theorem rendererDraw_draw_calls (mesh : OfMesh) :
    (mesh.indices = [] →
      (rendererDraw mesh).filter isDrawCall = [DrawOp.cmdDraw mesh.numVertices 1 0 1]) ∧
    (mesh.indices ≠ [] →
      (rendererDraw mesh).filter isDrawCall
        = [DrawOp.cmdDrawIndexed mesh.indices.length 1 0 0 1]) := by
  constructor
  · intro hnone
    simp [rendererDraw, storeMesh, hnone, isDrawCall]
  · intro hsome
    have : mesh.indices.isEmpty = false := by
      cases h : mesh.indices with
      | nil => exact absurd h hsome
      | cons a t => simp
    simp [rendererDraw, storeMesh, this, isDrawCall]

/-- Witness for C9: a three-vertex mesh without indices records one
`vkCmdDraw` of 3 vertices; a four-vertex mesh with six indices records one
`vkCmdDrawIndexed` of 6 indices. -/
theorem rendererDraw_draw_calls_witness :
    (rendererDraw { numVertices := 3, indices := [] }).filter isDrawCall
      = [DrawOp.cmdDraw 3 1 0 1] ∧
    (rendererDraw { numVertices := 4, indices := [0, 1, 2, 2, 1, 3] }).filter isDrawCall
      = [DrawOp.cmdDrawIndexed 6 1 0 0 1] :=
  ⟨(rendererDraw_draw_calls { numVertices := 3, indices := [] }).1 rfl,
   (rendererDraw_draw_calls { numVertices := 4, indices := [0, 1, 2, 2, 1, 3] }).2
     (by decide)⟩

/- ===================== setupDescriptorSets (ofVkRenderer.cpp 64-132) ===================== -/

/-- Embedding of `VkWriteDescriptorSet` (the fields the loop populates; the
pointer fields are modelled by `hasBufferInfo`, true when `pBufferInfo` is
set to the context's buffer info).  A freshly value-constructed element of the
`std::vector` has all fields zero / null. -/
structure VkWriteDescriptorSet where
  sType : Nat
  dstSet : Nat
  dstBinding : Nat
  dstArrayElement : Nat
  descriptorCount : Nat
  descriptorType : Nat
  hasBufferInfo : Bool
deriving DecidableEq, Repr

/-- A zeroed `VkWriteDescriptorSet`, as produced by
`std::vector<VkWriteDescriptorSet> writeDescriptorSets(bindings.size())`. -/
def zeroWriteDescriptorSet : VkWriteDescriptorSet :=
  { sType := 0, dstSet := 0, dstBinding := 0, dstArrayElement := 0,
    descriptorCount := 0, descriptorType := 0, hasBufferInfo := false }

/-- The record the loop body of `setupDescriptorSets` (ofVkRenderer.cpp
113-127) builds for one binding: write-descriptor for `mDescriptorSets[0]`
(identified here by `descriptorSet0`) at the binding's binding number and
descriptor type, one descriptor, buffer info from the context. -/
def writeDescriptorSetFor (descriptorSet0 : Nat) (b : BindingInfo) : VkWriteDescriptorSet :=
  { sType := VK_STRUCTURE_TYPE_WRITE_DESCRIPTOR_SET
    dstSet := descriptorSet0
    dstBinding := b.binding.binding
    dstArrayElement := 0
    descriptorCount := 1
    descriptorType := b.binding.descriptorType
    hasBufferInfo := true }

/-- Embedding of the write-descriptor loop of
`ofVkRenderer::setupDescriptorSets` (ofVkRenderer.cpp 101-131): the vector is
value-constructed with `bindings.size()` zeroed elements, and the loop assigns
`writeDescriptorSets[i]` for each binding — but `++i` sits after the loop
body's closing brace, so `i` stays 0 for every iteration and each record is
written to element 0. -/
def setupDescriptorSetsWrites (descriptorSet0 : Nat) (bindings : UniformMap) :
    List VkWriteDescriptorSet :=
  bindings.foldl (fun ws b => ws.set 0 (writeDescriptorSetFor descriptorSet0 b.2))
    (List.replicate bindings.length zeroWriteDescriptorSet)

/-- Writing index 0 repeatedly: the fold leaves the last written record at
the head and the initial tail untouched. -/
theorem foldl_set_zero_eq {α β : Type} (f : β → α) :
    ∀ (l : List β) (b : β) (a : α) (t : List α),
      (b :: l).foldl (fun ws x => ws.set 0 (f x)) (a :: t)
        = f ((b :: l).getLast (by simp)) :: t := by
  intro l
  induction l with
  | nil =>
    intro b a t
    simp [List.set]
  | cons c rest ih =>
    intro b a t
    rw [List.foldl_cons]
    have hset : (a :: t).set 0 (f b) = f b :: t := by simp [List.set]
    rw [hset, ih c (f b) t]
    simp [List.getLast_cons]

/-- C10: in `setupDescriptorSets` the index into the write-descriptor array
is incremented outside the loop over bindings, so every iteration writes its
record to element 0: for any shader with more than one unique binding, only
element 0 of the array passed to `vkUpdateDescriptorSets` is ever populated
(it ends up holding the record of the last binding iterated) and every
remaining element keeps its zeroed construction value. -/
theorem setupDescriptorSets_only_element_zero_written (descriptorSet0 : Nat)
    (bindings : UniformMap) (htwo : 2 ≤ bindings.length) :
    (setupDescriptorSetsWrites descriptorSet0 bindings).get? 0
      = (bindings.getLast?).map (fun b => writeDescriptorSetFor descriptorSet0 b.2) ∧
    ∀ j, 1 ≤ j → j < bindings.length →
      (setupDescriptorSetsWrites descriptorSet0 bindings).get? j
        = some zeroWriteDescriptorSet := by
  obtain ⟨b₀, l, hb⟩ : ∃ b₀ l, bindings = b₀ :: l := by
    cases hb : (bindings : List (String × BindingInfo)) with
    | nil => rw [hb] at htwo; simp at htwo
    | cons b₀ l => exact ⟨b₀, l, rfl⟩
  have hrep : List.replicate (b₀ :: l).length zeroWriteDescriptorSet
      = zeroWriteDescriptorSet :: List.replicate l.length zeroWriteDescriptorSet := by
    simp [List.replicate]
  have hfold :
      setupDescriptorSetsWrites descriptorSet0 (b₀ :: l)
        = writeDescriptorSetFor descriptorSet0 ((b₀ :: l).getLast (by simp)).2
            :: List.replicate l.length zeroWriteDescriptorSet := by
    unfold setupDescriptorSetsWrites
    rw [hrep]
    exact foldl_set_zero_eq (fun b => writeDescriptorSetFor descriptorSet0 b.2) l b₀ _ _
  rw [hb]
  constructor
  · rw [hfold]
    rw [List.getLast?_eq_getLast (b₀ :: l) (by simp)]
    rfl
  · intro j h1 h2
    rw [hfold]
    cases j with
    | zero => omega
    | succ j₀ =>
      simp only [List.get?_cons_succ]
      rw [List.get?_eq_getElem?, List.getElem?_replicate]
      have hlt : j₀ < l.length := by
        simp only [List.length_cons] at h2
        omega
      simp [hlt]

def uniformMapTen : UniformMap :=
  [("DefaultMatrices", bindingW1), ("Style", bindingW2)]

/-- Witness for C10: with two bindings, only element 0 of the
write-descriptor array is populated (with the last binding's record) and
element 1 stays zeroed. -/
theorem setupDescriptorSets_only_element_zero_written_witness :
    (setupDescriptorSetsWrites 7 uniformMapTen).get? 0
      = (uniformMapTen.getLast?).map (fun b => writeDescriptorSetFor 7 b.2) ∧
    ∀ j, 1 ≤ j → j < uniformMapTen.length →
      (setupDescriptorSetsWrites 7 uniformMapTen).get? j = some zeroWriteDescriptorSet :=
  setupDescriptorSets_only_element_zero_written 7 uniformMapTen (by decide)
